import Mathlib

/-!
Verification development for the Defectra video-analysis pipeline.

This file gives a shallow embedding of the core logic of
`src/video_processor.py` (class `VideoProcessor`: `extract_frames`,
`analyze_video_with_ai`, `_create_defect_timeline`, `format_timestamp`) and of
the classifier adapter in `src/gemini_intagration.py`
(`analyze_image_with_gemini`, `get_fallback_analysis`), and proves or refutes
the frozen claims about them.

Modelling conventions:
* Python dicts with optional keys become structures with `Option` fields;
  `dict.get(k, default)` becomes `field.getD default`.
* Python floats (timestamps, scores, confidences) are modelled as `ℚ`.
* Python `int(x)` truncation toward zero is `pyInt`.
* A raised Python exception that escapes a function is `Except.error`;
  a normal return is `Except.ok`.
* The OpenCV capture handle is modelled by `VideoSource`: either unopenable
  (`cap.isOpened()` is false) or opened with metadata (`total_frames`, `fps`),
  where reading frame `k` succeeds exactly when `k < total_frames`.
-/

/-- One defect record, as produced by the classifier and consumed by the
pipeline (a Python dict; every key may be absent).  The keys
`frame_number`, `timestamp`, `timestamp_formatted` are added by
`analyze_video_with_ai` when it tags a detection with its frame. -/
structure Detection where
  detected_object : Option String := none
  severity : Option String := none
  confidence_score : Option ℚ := none
  location : Option String := none
  description : Option String := none
  repair_priority : Option String := none
  estimated_impact : Option String := none
  frame_number : Option Nat := none
  timestamp : Option ℚ := none
  timestamp_formatted : Option String := none
deriving DecidableEq, Repr

/-- The per-frame `defects_summary` dict built by `analyze_image_with_gemini`
(src/gemini_intagration.py lines 204-216). -/
structure DefectsSummary where
  critical : Nat
  high : Nat
  medium : Nat
  low : Nat
  total : Nat
deriving DecidableEq, Repr

/-- The analysis dict returned by the classifier adapter and consumed by the
pipeline.  This models both the raw parsed JSON (which may carry a `defects`
key) and the adapter's output (where `defects` has been renamed to
`detections`); in Python both are the same dynamically-typed dict. -/
structure Analysis where
  is_property : Option Bool := none
  overall_condition_score : Option ℚ := none
  usability_rating : Option String := none
  overall_assessment : Option String := none
  defects : Option (List Detection) := none
  detections : Option (List Detection) := none
  defects_summary : Option DefectsSummary := none
  message : Option String := none
deriving DecidableEq, Repr

/-- Python `int(q)`: truncation toward zero. -/
def pyInt (q : ℚ) : ℤ := if 0 ≤ q then q.floor else -((-q).floor)

/-- `format_timestamp` (src/video_processor.py lines 342-354):
`minutes = int(seconds // 60)`, `secs = int(seconds % 60)`, rendered as
`"M:SS"`.  Python float `//` is the floor and `%` the floored remainder
(in `[0, 60)` here), so `secs` is a nonnegative integer and the `:02d`
padding is exactly a leading zero for one-digit values. -/
def format_timestamp (seconds : ℚ) : String :=
  let minutes : ℤ := (seconds / 60).floor
  let secs : ℤ := (seconds - 60 * (((seconds / 60).floor : ℤ) : ℚ)).floor
  toString minutes ++ ":" ++ (if secs < 10 then "0" ++ toString secs else toString secs)

/-- Sampler configuration (constructor arguments of `VideoProcessor`,
src/video_processor.py lines 19-30, with the source defaults). -/
structure VPConfig where
  frame_interval : Nat := 30
  max_frames : Nat := 100
  min_frames : Nat := 10
deriving DecidableEq, Repr

/-- The `VideoProcessor` configuration with all defaults. -/
def defaultConfig : VPConfig := {}

/-- Metadata of an opened video (`CAP_PROP_FRAME_COUNT`, `CAP_PROP_FPS`). -/
structure VideoMeta where
  total_frames : Nat
  fps : ℚ
deriving DecidableEq, Repr

/-- An OpenCV video source as seen through `cv2.VideoCapture`:
either `cap.isOpened()` is false, or the capture is open with metadata and
reading frame `k` succeeds exactly for `k < total_frames`. -/
inductive VideoSource where
  | unopenable
  | opened (meta : VideoMeta)
deriving DecidableEq, Repr

/-- One extracted frame: the `(pil_image, timestamp, frame_count)` tuple of
src/video_processor.py line 87, minus the pixel buffer (the image content is
opaque to the logic being verified; a frame is identified by its index). -/
structure SampledFrame where
  timestamp : ℚ
  frame_number : Nat
deriving DecidableEq, Repr

/-- The frame built at src/video_processor.py lines 79-87: timestamp is
`frame_count / fps if fps > 0 else 0`. -/
def mkSample (meta : VideoMeta) (frameCount : Nat) : SampledFrame :=
  { timestamp := if 0 < meta.fps then (frameCount : ℚ) / meta.fps else 0
    frame_number := frameCount }

/-- The adaptive interval computation of src/video_processor.py lines 57-62:
if `total_frames < min_frames * frame_interval` then
`max(1, total_frames // min_frames)` else `frame_interval`. -/
def effective_interval (cfg : VPConfig) (total_frames : Nat) : Nat :=
  if total_frames < cfg.min_frames * cfg.frame_interval then
    max 1 (total_frames / cfg.min_frames)
  else cfg.frame_interval

/-- The `while` loop of src/video_processor.py lines 70-95.  The loop runs
while `extracted_count < max_frames` and the next read succeeds
(`frame_count < total_frames`); a frame is emitted when
`frame_count % frame_interval == 0`.  `fuel` is a structural-recursion
artifact: the loop advances `frameCount` by one per iteration and stops once
`frameCount` reaches `total_frames`, so starting the fuel at `total_frames`
never truncates the loop (proved in `extractLoop_eq`). -/
def extractLoop (meta : VideoMeta) (interval maxFrames : Nat) :
    Nat → Nat → Nat → List SampledFrame
  | 0, _, _ => []
  | fuel + 1, frameCount, extracted =>
      if extracted < maxFrames ∧ frameCount < meta.total_frames then
        if frameCount % interval = 0 then
          mkSample meta frameCount ::
            extractLoop meta interval maxFrames fuel (frameCount + 1) (extracted + 1)
        else extractLoop meta interval maxFrames fuel (frameCount + 1) extracted
      else []

/-- `VideoProcessor.extract_frames` (src/video_processor.py lines 32-102).
On an unopenable source the `ValueError("Failed to open video file")` is
re-raised as `Exception("Error extracting frames: ...")` (lines 49-50 and
101-102); on an opened source the sampling loop runs to completion. -/
def extract_frames (cfg : VPConfig) : VideoSource → Except String (List SampledFrame)
  | .unopenable => .error "Error extracting frames: Failed to open video file"
  | .opened meta =>
      let interval := effective_interval cfg meta.total_frames
      .ok (extractLoop meta interval cfg.max_frames meta.total_frames 0 0)

/-! ## Classifier adapter (src/gemini_intagration.py) -/

/-- The synthetic detection of `get_fallback_analysis`
(src/gemini_intagration.py lines 265-273). -/
def fallbackDetection : Detection :=
  { detected_object := some "API Unavailable - Manual Inspection Required"
    confidence_score := some 50
    severity := some "medium"
    location := some "Unable to analyze"
    description := some "AI analysis service is currently unavailable. Please verify your API key and internet connection. Professional manual inspection is recommended for accurate defect detection."
    repair_priority := some "urgent"
    estimated_impact := some "Unknown - requires professional assessment" }

/-- `get_fallback_analysis` (src/gemini_intagration.py lines 254-287):
the degraded result substituted when the API is unavailable.  The function's
own defensive `except` branch (returning `is_property: false` when numpy
cannot convert the image) is unreachable for the decoded PIL frames this
pipeline feeds it and is not modelled. -/
def get_fallback_analysis : Analysis :=
  { is_property := some true
    overall_condition_score := some 70
    usability_rating := some "fair"
    overall_assessment := some "Unable to perform AI analysis. Please check your API configuration and try again."
    defects_summary := some { critical := 0, high := 0, medium := 1, low := 0, total := 1 }
    detections := some [fallbackDetection] }

/-- The `defects_summary` tally of src/gemini_intagration.py lines 204-210. -/
def mkDefectsSummary (ds : List Detection) : DefectsSummary :=
  { critical := (ds.filter fun d => decide (d.severity = some "critical")).length
    high := (ds.filter fun d => decide (d.severity = some "high")).length
    medium := (ds.filter fun d => decide (d.severity = some "medium")).length
    low := (ds.filter fun d => decide (d.severity = some "low")).length
    total := ds.length }

/-- Outcome of one call to the external Gemini API together with the JSON
decoding of its response text, the external inputs to
`analyze_image_with_gemini` (src/gemini_intagration.py lines 164-251):
* `apiError`: the API call (or client setup) raised;
* `parsedNonDict`: the response parsed as JSON but not as a dict, so the
  `ValueError` of line 199 is raised and caught by the generic handler;
* `unparseableNoRescue`: `json.loads` raised `JSONDecodeError` and the
  regex rescue (lines 225-234) found no parseable JSON object;
* `unparseableRescued r`: `json.loads` raised `JSONDecodeError` but the
  regex rescue extracted and parsed the dict `r` (e.g. a response with
  prose around a JSON object);
* `parsed r`: the response text parsed directly as the dict `r`. -/
inductive GeminiOutcome where
  | apiError (msg : String)
  | parsedNonDict
  | unparseableNoRescue
  | unparseableRescued (extracted : Analysis)
  | parsed (result : Analysis)
deriving DecidableEq, Repr

/-- `analyze_image_with_gemini` (src/gemini_intagration.py lines 22-251) as a
function of the call outcome.  Error paths return `get_fallback_analysis`,
except the regex-rescue path (lines 225-234) which returns the extracted dict
verbatim with no further processing; the success path (lines 197-218)
renames `defects` to `detections` and adds `defects_summary` only when
`is_property` is truthy (`.get("is_property", False)`). -/
def analyze_image_with_gemini : GeminiOutcome → Analysis
  | .apiError _ => get_fallback_analysis
  | .parsedNonDict => get_fallback_analysis
  | .unparseableNoRescue => get_fallback_analysis
  | .unparseableRescued r => r
  | .parsed r =>
      if r.is_property.getD false then
        match r.defects with
        | some ds =>
            { r with defects_summary := some (mkDefectsSummary ds)
                     defects := none
                     detections := some ds }
        | none =>
            { r with detections := some []
                     defects_summary := some { critical := 0, high := 0, medium := 0, low := 0, total := 0 } }
      else r

/-! ## Video analysis pipeline (src/video_processor.py lines 183-285) -/

/-- The per-frame analysis record built at src/video_processor.py
lines 225-232. -/
structure FrameAnalysis where
  frame_number : Nat
  timestamp : ℚ
  timestamp_formatted : String
  detections : List Detection
  overall_score : ℚ
  usability : String
deriving DecidableEq, Repr

/-- Builds the frame-analysis record of src/video_processor.py lines 225-232
(`analysis.get` defaults: detections `[]`, overall score `0`,
usability `"unknown"`). -/
def mkFrameAnalysis (analysis : Analysis) (f : SampledFrame) : FrameAnalysis :=
  { frame_number := f.frame_number
    timestamp := f.timestamp
    timestamp_formatted := format_timestamp f.timestamp
    detections := analysis.detections.getD []
    overall_score := analysis.overall_condition_score.getD 0
    usability := analysis.usability_rating.getD "unknown" }

/-- `detection_with_time` (src/video_processor.py lines 237-241): a copy of
the detection with the frame's number and timestamps attached. -/
def withTime (f : SampledFrame) (d : Detection) : Detection :=
  { d with frame_number := some f.frame_number
           timestamp := some f.timestamp
           timestamp_formatted := some (format_timestamp f.timestamp) }

/-- The per-frame loop of src/video_processor.py lines 212-242, returning
`(all_detections, frame_analyses, non_property_frames)`.  A frame whose
analysis has `is_property` explicitly false (`analysis.get('is_property',
True)` falsy) is skipped and only counted; otherwise its record is appended
to `frame_analyses` and its time-tagged detections to `all_detections`,
preserving frame order. -/
def pipelineScan (ai : SampledFrame → Analysis) :
    List SampledFrame → List Detection × List FrameAnalysis × Nat
  | [] => ([], [], 0)
  | f :: rest =>
      let analysis := ai f
      let r := pipelineScan ai rest
      if analysis.is_property.getD true = false then
        (r.1, r.2.1, r.2.2 + 1)
      else
        (((analysis.detections.getD []).map (withTime f)) ++ r.1,
         mkFrameAnalysis analysis f :: r.2.1,
         r.2.2)

/-- The severity tally of src/video_processor.py lines 258-263. -/
structure SeverityCounts where
  critical : Nat
  high : Nat
  medium : Nat
  low : Nat
deriving DecidableEq, Repr

/-- `severity_counts` (src/video_processor.py lines 258-263): each bucket
counts the detections whose `severity` equals that exact string. -/
def severity_counts (ds : List Detection) : SeverityCounts :=
  { critical := (ds.filter fun d => decide (d.severity = some "critical")).length
    high := (ds.filter fun d => decide (d.severity = some "high")).length
    medium := (ds.filter fun d => decide (d.severity = some "medium")).length
    low := (ds.filter fun d => decide (d.severity = some "low")).length }

/-! ### Defect timeline builder (src/video_processor.py lines 287-339) -/

/-- One occurrence record appended at src/video_processor.py lines 317-324
(all values via `detection.get` with the source defaults). -/
structure Occurrence where
  timestamp : ℚ
  timestamp_formatted : String
  frame_number : Nat
  confidence : ℚ
  location : String
  description : String
deriving DecidableEq, Repr

/-- The occurrence built from one detection
(src/video_processor.py lines 317-324). -/
def mkOccurrence (d : Detection) : Occurrence :=
  { timestamp := d.timestamp.getD 0
    timestamp_formatted := d.timestamp_formatted.getD "0:00"
    frame_number := d.frame_number.getD 0
    confidence := d.confidence_score.getD 0
    location := d.location.getD "Unknown"
    description := d.description.getD "" }

/-- One timeline entry (the dict created at src/video_processor.py
lines 306-314). -/
structure TimelineEntry where
  defect_type : String
  severity : String
  occurrences : List Occurrence
  first_seen : ℚ
  last_seen : ℚ
  frame_count : Nat
  avg_confidence : ℚ
deriving DecidableEq, Repr

/-- Python `str.lower()`: lowercase every character (ASCII-faithful, as is
Lean's `Char.toLower`; the classifier labels are ASCII). -/
def pyLower (s : String) : String := ⟨s.data.map Char.toLower⟩

/-- Python `str.strip()`: drop whitespace from both ends. -/
def pyStrip (s : String) : String :=
  ⟨((s.data.dropWhile Char.isWhitespace).reverse.dropWhile Char.isWhitespace).reverse⟩

/-- The normalization key of src/video_processor.py lines 300-303:
`detection.get('detected_object', 'Unknown').lower().strip()`. -/
def timelineKey (d : Detection) : String :=
  pyStrip (pyLower (d.detected_object.getD "Unknown"))

/-- The fresh entry created at src/video_processor.py lines 305-314 when a
key is first seen. -/
def seedEntry (d : Detection) : TimelineEntry :=
  { defect_type := d.detected_object.getD "Unknown"
    severity := d.severity.getD "medium"
    occurrences := []
    first_seen := d.timestamp.getD 0
    last_seen := d.timestamp.getD 0
    frame_count := 0
    avg_confidence := 0 }

/-- The per-detection update of src/video_processor.py lines 316-331:
append the occurrence, take the max for `last_seen`, bump `frame_count`. -/
def addOcc (e : TimelineEntry) (d : Detection) : TimelineEntry :=
  { e with occurrences := e.occurrences ++ [mkOccurrence d]
           last_seen := max e.last_seen (d.timestamp.getD 0)
           frame_count := e.frame_count + 1 }

/-- The `timeline` Python dict, modelled as an insertion-ordered association
list (Python dicts preserve insertion order). -/
abbrev Timeline := List (String × TimelineEntry)

/-- First-match lookup in the association list (Python `key in dict` /
`dict[key]`). -/
def alistLookup (k : String) : Timeline → Option TimelineEntry
  | [] => none
  | (k', e) :: rest => if k' = k then some e else alistLookup k rest

/-- In-place value update at a key (Python `dict[key] = ...` on a present
key); a no-op when the key is absent. -/
def alistUpdate (k : String) (f : TimelineEntry → TimelineEntry) : Timeline → Timeline
  | [] => []
  | (k', e) :: rest =>
      if k' = k then (k', f e) :: rest else (k', e) :: alistUpdate k f rest

/-- The body of the `for detection in detections` loop of
src/video_processor.py lines 299-331: seed the entry if the key is new
(insertion appends at the end of the dict), then append the occurrence and
update the stats. -/
def timelineStep (tl : Timeline) (d : Detection) : Timeline :=
  let key := timelineKey d
  let tl1 := if (alistLookup key tl).isSome then tl else tl ++ [(key, seedEntry d)]
  alistUpdate key (fun e => addOcc e d) tl1

/-- The second pass of src/video_processor.py lines 334-337: set
`avg_confidence` to the mean of the occurrence confidences (0 when the
occurrence list is empty). -/
def setAvg (e : TimelineEntry) : TimelineEntry :=
  { e with avg_confidence :=
      if e.occurrences.isEmpty then 0
      else ((e.occurrences.map Occurrence.confidence).sum) / (e.occurrences.length : ℚ) }

/-- `VideoProcessor._create_defect_timeline`
(src/video_processor.py lines 287-339). -/
def _create_defect_timeline (detections : List Detection) : Timeline :=
  ((detections.foldl timelineStep []).map fun p => (p.1, setAvg p.2))

/-! ### Result assembly (src/video_processor.py lines 195-285) -/

/-- The result dict of `analyze_video_with_ai`.  The three return shapes of
the source (extraction-failure dict of lines 198-203, no-detections dict of
lines 245-255, full dict of lines 272-285) are one structure with `Option`
fields for the keys not present in every shape. -/
structure VideoResult where
  success : Bool
  error : Option String := none
  frames_analyzed : Nat := 0
  non_property_frames : Option Nat := none
  property_frames : Option Nat := none
  total_defects : Option Nat := none
  unique_defect_types : Option Nat := none
  frame_analyses : List FrameAnalysis := []
  all_detections : List Detection := []
  defect_timeline : Option Timeline := none
  defect_summary : Option SeverityCounts := none
  average_score : Option ℤ := none
  message : Option String := none
  frames_with_defects : Option Nat := none
deriving DecidableEq, Repr

/-- Lines 205-285 of src/video_processor.py: analyze every extracted frame,
then aggregate.  The empty-detections branch (lines 245-255) returns the
literal dict of the source — in particular its `frame_analyses` is the empty
list even when property frames were analyzed.  In the full branch,
`average_score` is `int(sum(scores)/len(scores))` over the positive
per-frame scores, or `int(0)` when no frame scored positive
(lines 266-267, 283). -/
def processFrames (frames : List SampledFrame) (ai : SampledFrame → Analysis) : VideoResult :=
  let s := pipelineScan ai frames
  let all_detections := s.1
  let frame_analyses := s.2.1
  let non_property_frames := s.2.2
  if all_detections.isEmpty then
    { success := true
      frames_analyzed := frames.length
      non_property_frames := some non_property_frames
      total_defects := some 0
      frame_analyses := []
      defect_summary := some { critical := 0, high := 0, medium := 0, low := 0 }
      average_score := some 100
      message := some "No defects detected in video" }
  else
    let counts := severity_counts all_detections
    let scores := (frame_analyses.filter fun f => decide (0 < f.overall_score)).map
      FrameAnalysis.overall_score
    let average_score : ℚ := if scores.isEmpty then 0 else scores.sum / (scores.length : ℚ)
    let defect_timeline := _create_defect_timeline all_detections
    { success := true
      frames_analyzed := frames.length
      non_property_frames := some non_property_frames
      property_frames := some frame_analyses.length
      total_defects := some all_detections.length
      unique_defect_types := some defect_timeline.length
      frame_analyses := frame_analyses
      all_detections := all_detections
      defect_timeline := some defect_timeline
      defect_summary := some counts
      average_score := some (pyInt average_score)
      frames_with_defects := some ((frame_analyses.filter fun f =>
        decide (0 < f.detections.length)).length) }

/-- `VideoProcessor.analyze_video_with_ai` (src/video_processor.py
lines 183-285).  The `extract_frames` call at line 196 is not wrapped in a
`try`, so its exception propagates (`Except.error`); an empty frame list
returns the `success=False` dict of lines 198-203; otherwise the frames are
analyzed and aggregated. -/
def analyze_video_with_ai (cfg : VPConfig) (src : VideoSource)
    (ai : SampledFrame → Analysis) : Except String VideoResult :=
  match extract_frames cfg src with
  | .error e => .error e
  | .ok frames =>
      if frames.isEmpty then
        .ok { success := false
              error := some "No frames could be extracted from video"
              frames_analyzed := 0 }
      else .ok (processFrames frames ai)

/-! ## Characterization of the sampling loop -/

/-- The sampling loop emits, in order, the frames whose index lies in
`[frameCount, total_frames)` and is a multiple of the interval, truncated to
the remaining budget — provided the fuel covers the remaining reads. -/
lemma extractLoop_eq (meta : VideoMeta) (interval maxFrames : Nat) :
    ∀ (fuel frameCount extracted : Nat), meta.total_frames ≤ frameCount + fuel →
      extractLoop meta interval maxFrames fuel frameCount extracted =
        (((List.range' frameCount (meta.total_frames - frameCount)).filter
            (fun k => decide (k % interval = 0))).take (maxFrames - extracted)).map
          (mkSample meta) := by
  intro fuel
  induction fuel with
  | zero =>
      intro fc ec h
      have h0 : meta.total_frames - fc = 0 := by omega
      simp [extractLoop, h0]
  | succ fuel ih =>
      intro fc ec h
      by_cases hec : ec < maxFrames
      · by_cases hfc : fc < meta.total_frames
        · have hn : meta.total_frames - fc = (meta.total_frames - (fc + 1)) + 1 := by omega
          rw [extractLoop, if_pos ⟨hec, hfc⟩, hn, List.range'_succ]
          by_cases hmod : fc % interval = 0
          · have hm : maxFrames - ec = (maxFrames - (ec + 1)) + 1 := by omega
            rw [if_pos hmod, ih (fc + 1) (ec + 1) (by omega)]
            simp [List.filter_cons, hmod, hm]
          · rw [if_neg hmod, ih (fc + 1) ec (by omega)]
            simp [List.filter_cons, hmod]
        · have h0 : meta.total_frames - fc = 0 := by omega
          rw [extractLoop, if_neg (by tauto)]
          simp [h0]
      · have h0 : maxFrames - ec = 0 := by omega
        rw [extractLoop, if_neg (by tauto)]
        simp [h0]

/-- The list produced by `extract_frames` on an opened source. -/
lemma extract_frames_eq (cfg : VPConfig) (meta : VideoMeta) :
    extract_frames cfg (.opened meta) =
      .ok ((((List.range meta.total_frames).filter
              (fun k => decide (k % effective_interval cfg meta.total_frames = 0))).take
            cfg.max_frames).map (mkSample meta)) := by
  rw [extract_frames]
  rw [extractLoop_eq meta _ _ meta.total_frames 0 0 (by omega)]
  simp [List.range_eq_range']

/-- Counting the multiples of `e` in `[0, T)`: there are `⌈T/e⌉ = (T+e-1)/e`
of them, for `e ≥ 1`. -/
lemma length_filter_mod_range (e : Nat) (he : 1 ≤ e) :
    ∀ T : Nat, ((List.range T).filter (fun k => decide (k % e = 0))).length
      = (T + e - 1) / e := by
  intro T
  induction T with
  | zero => simp [Nat.div_eq_of_lt (by omega : e - 1 < e)]
  | succ T ih =>
      rw [List.range_succ, List.filter_append, List.length_append, ih]
      have h1 : T + 1 + e - 1 = (T + e - 1) + 1 := by omega
      have h2 : T + e - 1 + 1 = T + e := by omega
      rw [h1, Nat.succ_div, h2]
      have h3 : (e ∣ T + e) ↔ (e ∣ T) := Nat.dvd_add_self_right
      by_cases hd : T % e = 0
      · have hdvd : e ∣ T + e := h3.mpr (Nat.dvd_of_mod_eq_zero hd)
        rw [if_pos hdvd]
        simp [hd]
      · have hnd : ¬ e ∣ T + e := fun hc =>
          hd (Nat.mod_eq_zero_of_dvd (h3.mp hc))
        rw [if_neg hnd]
        simp [hd]

/-- Claim C5: for a video with `total_frames = T` and configuration
`(frame_interval = N, max_frames = M, min_frames = m)` (with `N ≥ 1`; the
Python source raises `ZeroDivisionError` on `N = 0`, which is outside the
claim's configuration space), the sampler emits exactly
`min(M, ⌈T / effective_interval⌉)` frames, where the effective interval is
`N` unless `T < m * N`, in which case it is `max(1, T / m)` (`/` the integer
floor division `//` of the source).  `⌈T/e⌉` is written `(T + e - 1) / e`
in natural-number division. -/
theorem C5_sampling_bound (cfg : VPConfig) (meta : VideoMeta)
    (hN : 1 ≤ cfg.frame_interval) (frames : List SampledFrame)
    (hx : extract_frames cfg (.opened meta) = .ok frames) :
    frames.length =
      min cfg.max_frames
        ((meta.total_frames + effective_interval cfg meta.total_frames - 1) /
          effective_interval cfg meta.total_frames) ∧
    effective_interval cfg meta.total_frames =
      (if meta.total_frames < cfg.min_frames * cfg.frame_interval then
        max 1 (meta.total_frames / cfg.min_frames)
      else cfg.frame_interval) := by
  have he : 1 ≤ effective_interval cfg meta.total_frames := by
    unfold effective_interval
    split
    · exact le_max_left _ _
    · exact hN
  rw [extract_frames_eq] at hx
  have hfr := (Except.ok.inj hx).symm
  subst hfr
  refine ⟨?_, rfl⟩
  rw [List.length_map, List.length_take,
    length_filter_mod_range _ he meta.total_frames]

/-- Witness for C5 on Scenario B of the spec: a 30-frame video with the
default configuration yields `min 100 ⌈30/3⌉ = 10` frames. -/
theorem C5_sampling_bound_witness :
    (1 : Nat) ≤ defaultConfig.frame_interval ∧
    ((((List.range 30).filter
          (fun k => decide (k % effective_interval defaultConfig 30 = 0))).take
        defaultConfig.max_frames).map (mkSample ⟨30, 30⟩)).length =
      min defaultConfig.max_frames
        ((30 + effective_interval defaultConfig 30 - 1) /
          effective_interval defaultConfig 30) :=
  ⟨by decide,
   (C5_sampling_bound defaultConfig ⟨30, 30⟩ (by decide) _ (extract_frames_eq _ _)).1⟩

/-- The emitted frame indices are strictly increasing, and so are the
timestamps whenever `fps > 0` (with `fps ≤ 0` every timestamp is the
constant 0). -/
lemma extract_frames_pairwise (cfg : VPConfig) (meta : VideoMeta)
    (frames : List SampledFrame)
    (hx : extract_frames cfg (.opened meta) = .ok frames) :
    frames.Pairwise (fun a b => a.frame_number < b.frame_number) ∧
    (0 < meta.fps → frames.Pairwise (fun a b => a.timestamp < b.timestamp)) := by
  rw [extract_frames_eq] at hx
  have hfr := (Except.ok.inj hx).symm
  subst hfr
  have hsub :
      (((List.range meta.total_frames).filter
          (fun k => decide (k % effective_interval cfg meta.total_frames = 0))).take
        cfg.max_frames).Sublist (List.range meta.total_frames) :=
    (List.take_sublist _ _).trans (List.filter_sublist _)
  have hpw :
      ((((List.range meta.total_frames).filter
          (fun k => decide (k % effective_interval cfg meta.total_frames = 0))).take
        cfg.max_frames)).Pairwise (· < ·) :=
    (List.pairwise_lt_range meta.total_frames).sublist hsub
  constructor
  · rw [List.pairwise_map]
    exact hpw.imp (fun h => h)
  · intro hfps
    rw [List.pairwise_map]
    refine hpw.imp (fun {a b} h => ?_)
    simp only [mkSample, if_pos hfps]
    exact div_lt_div_of_pos_right (by exact_mod_cast h) hfps

/-- The claim of P2 as stated: consecutively emitted frames strictly increase
in both `frame_index` and `timestamp`. -/
def consecutiveStrictMono (l : List SampledFrame) : Prop :=
  List.Chain' (fun a b => a.frame_number < b.frame_number ∧ a.timestamp < b.timestamp) l

/-- The two frames extracted from a 2-frame video whose container reports
`fps = 0` (OpenCV returns 0 fps for some containers; the source guards this
case explicitly at line 85 by defaulting the timestamp to 0). -/
def c7Frames : List SampledFrame := [⟨0, 0⟩, ⟨0, 1⟩]

/-- Claim C7, counterexample: on a 2-frame video with `fps = 0` and the
default configuration, the sampler emits two consecutive frames with equal
timestamps (both 0), so the later frame's timestamp is not strictly greater
than the earlier one's. -/
theorem C7_counterexample :
    extract_frames defaultConfig (.opened ⟨2, 0⟩) = .ok c7Frames ∧
    ¬ consecutiveStrictMono c7Frames := by
  constructor
  · rfl
  · intro h
    rcases h with _ | ⟨hab, _⟩
    exact absurd hab.2 (lt_irrefl 0)

/-- Claim C7, amended: for frames emitted by the sampler (with
`frame_interval ≥ 1`), the frame indices are strictly increasing pairwise
(hence between any two consecutive frames); timestamps are strictly
increasing whenever the source's `fps` is positive, while for `fps ≤ 0`
every timestamp is 0 so the timestamp half of the claim fails. -/
theorem C7_monotone_amended (cfg : VPConfig) (meta : VideoMeta)
    (_hN : 1 ≤ cfg.frame_interval) (frames : List SampledFrame)
    (hx : extract_frames cfg (.opened meta) = .ok frames) :
    frames.Pairwise (fun a b => a.frame_number < b.frame_number) ∧
    (0 < meta.fps → frames.Pairwise (fun a b => a.timestamp < b.timestamp)) :=
  extract_frames_pairwise cfg meta frames hx

/-- Witness for the amended C7 on a 30-frame, 30 fps video with the default
configuration. -/
theorem C7_monotone_amended_witness :
    ((((List.range 30).filter
        (fun k => decide (k % effective_interval defaultConfig 30 = 0))).take
      defaultConfig.max_frames).map (mkSample ⟨30, 30⟩)).Pairwise
        (fun a b => a.frame_number < b.frame_number) ∧
    ((((List.range 30).filter
        (fun k => decide (k % effective_interval defaultConfig 30 = 0))).take
      defaultConfig.max_frames).map (mkSample ⟨30, 30⟩)).Pairwise
        (fun a b => a.timestamp < b.timestamp) := by
  have h := C7_monotone_amended defaultConfig ⟨30, 30⟩ (by decide) _ (extract_frames_eq _ _)
  exact ⟨h.1, h.2 (by norm_num)⟩

/-! ## Characterization of the per-frame pipeline loop -/

/-- The loop of lines 212-242 in closed form: detections and frame records
come, in order, from exactly the frames whose analysis is not explicitly
non-property, and the skip counter counts the rest. -/
lemma pipelineScan_eq (ai : SampledFrame → Analysis) (frames : List SampledFrame) :
    pipelineScan ai frames =
      ((frames.filter fun f => (ai f).is_property.getD true).flatMap
         (fun f => ((ai f).detections.getD []).map (withTime f)),
       (frames.filter fun f => (ai f).is_property.getD true).map
         (fun f => mkFrameAnalysis (ai f) f),
       (frames.filter fun f => !(ai f).is_property.getD true).length) := by
  induction frames with
  | nil => rfl
  | cons f rest ih =>
      rw [pipelineScan, ih]
      by_cases h : (ai f).is_property.getD true = false
      · simp [List.filter_cons, h]
      · have h' : (ai f).is_property.getD true = true := by
          cases hb : (ai f).is_property.getD true
          · exact absurd hb h
          · rfl
        simp [List.filter_cons, h, h']

/-! ## C2: failure semantics of the pipeline entry point -/

/-- An analyzer that reports every frame as a property frame with no
detections (its value is irrelevant to the failure paths). -/
def benignAi : SampledFrame → Analysis := fun _ =>
  { is_property := some true, detections := some [] }

/-- Claim C2, counterexample: on a source that cannot be opened, the
`extract_frames` call at line 196 raises and `analyze_video_with_ai` does
not catch it, so the exception propagates to the caller instead of a
`success=false` result (the callers in src/app.py and
src/app_with_video.py indeed wrap the whole call in their own `try`). -/
theorem C2_counterexample :
    analyze_video_with_ai defaultConfig VideoSource.unopenable benignAi =
      Except.error "Error extracting frames: Failed to open video file" := rfl

/-- Claim C2, amended: only the opened-but-zero-readable-frames case is
returned as a structured `success=false` result (lines 198-203); when the
video cannot be opened at all, the exception raised inside `extract_frames`
propagates unchanged out of `analyze_video_with_ai`. -/
theorem C2_failure_semantics_amended (cfg : VPConfig) (src : VideoSource)
    (ai : SampledFrame → Analysis) :
    (∀ e, extract_frames cfg src = .error e →
      analyze_video_with_ai cfg src ai = .error e) ∧
    (extract_frames cfg src = .ok [] →
      analyze_video_with_ai cfg src ai =
        .ok { success := false
              error := some "No frames could be extracted from video"
              frames_analyzed := 0 }) := by
  constructor
  · intro e he
    rw [analyze_video_with_ai, he]
  · intro he
    rw [analyze_video_with_ai, he]
    rfl

/-- Witness for the amended C2: a video that opens but reports zero frames
yields the structured failure result. -/
theorem C2_failure_semantics_amended_witness :
    analyze_video_with_ai defaultConfig (.opened ⟨0, 30⟩) benignAi =
      .ok { success := false
            error := some "No frames could be extracted from video"
            frames_analyzed := 0 } :=
  (C2_failure_semantics_amended defaultConfig (.opened ⟨0, 30⟩) benignAi).2 rfl

/-! ## C1: the average score -/

/-- An analyzer returning, for every frame, a property analysis with one
detection and `overall_condition_score = 0`. -/
def c1Ai : SampledFrame → Analysis := fun _ =>
  { is_property := some true
    overall_condition_score := some 0
    detections := some [{ detected_object := some "crack" }] }

/-- Claim C1, counterexample: a run on a 1-frame video whose only property
frame has `overall_condition_score = 0` (so no property frame has a score
greater than 0) and one detection.  The short-circuit branch of lines
245-255 (which is what returns 100) is skipped because the detection list is
nonempty, and line 267 then yields `average_score = 0`, not the claimed
100. -/
theorem C1_counterexample :
    analyze_video_with_ai defaultConfig (.opened ⟨1, 30⟩) c1Ai =
      .ok (processFrames [mkSample ⟨1, 30⟩ 0] c1Ai) ∧
    (processFrames [mkSample ⟨1, 30⟩ 0] c1Ai).frame_analyses.map
      FrameAnalysis.overall_score = [0] ∧
    (processFrames [mkSample ⟨1, 30⟩ 0] c1Ai).average_score = some 0 := by
  refine ⟨rfl, by decide, by decide⟩

/-- Claim C1, amended: `average_score` is 100 exactly when the flat
detection list is empty (in particular when there are zero property frames);
when the detection list is nonempty it is the Python-`int` truncation of the
mean of `overall_condition_score` over property frames with score > 0, and
0 — not 100 — when no property frame scored above 0. -/
theorem C1_average_score_amended (cfg : VPConfig) (src : VideoSource)
    (ai : SampledFrame → Analysis) (frames : List SampledFrame) (r : VideoResult)
    (hx : extract_frames cfg src = .ok frames) (hne : ¬ frames.isEmpty)
    (hr : analyze_video_with_ai cfg src ai = .ok r) :
    (r.all_detections = [] → r.average_score = some 100) ∧
    (r.all_detections ≠ [] →
      r.average_score = some (pyInt
        (if ((r.frame_analyses.filter fun fa => decide (0 < fa.overall_score)).map
              FrameAnalysis.overall_score).isEmpty then 0
         else ((r.frame_analyses.filter fun fa => decide (0 < fa.overall_score)).map
              FrameAnalysis.overall_score).sum /
            (((r.frame_analyses.filter fun fa => decide (0 < fa.overall_score)).map
              FrameAnalysis.overall_score).length : ℚ)))) := by
  simp only [analyze_video_with_ai, hx, if_neg hne] at hr
  have hr' := (Except.ok.inj hr).symm
  subst hr'
  rw [processFrames]
  by_cases hd : (pipelineScan ai frames).1.isEmpty
  · rw [if_pos hd]
    constructor
    · intro _; rfl
    · intro hne'
      exact absurd rfl hne'
  · rw [if_neg hd]
    constructor
    · intro habs
      exact absurd habs (by simpa [List.isEmpty_iff] using hd)
    · intro _; rfl

/-- Witness for the amended C1 on the 1-frame run with an all-zero score:
the pipeline reports average 0. -/
theorem C1_average_score_amended_witness :
    (processFrames [mkSample ⟨1, 30⟩ 0] c1Ai).average_score = some 0 := by
  have h := C1_average_score_amended defaultConfig (.opened ⟨1, 30⟩) c1Ai
    [mkSample ⟨1, 30⟩ 0] (processFrames [mkSample ⟨1, 30⟩ 0] c1Ai) rfl (by decide) rfl
  exact (h.2 (by decide)).trans (by decide)

/-! ## Characterization of the timeline builder -/

lemma alistLookup_update_self (k : String) (f : TimelineEntry → TimelineEntry)
    (tl : Timeline) :
    alistLookup k (alistUpdate k f tl) = (alistLookup k tl).map f := by
  induction tl with
  | nil => rfl
  | cons p rest ih =>
      obtain ⟨k', e⟩ := p
      by_cases h : k' = k <;> simp [alistUpdate, alistLookup, h, ih]

lemma alistLookup_update_ne (k k' : String) (h : k' ≠ k)
    (f : TimelineEntry → TimelineEntry) (tl : Timeline) :
    alistLookup k (alistUpdate k' f tl) = alistLookup k tl := by
  induction tl with
  | nil => rfl
  | cons p rest ih =>
      obtain ⟨k'', e⟩ := p
      by_cases h1 : k'' = k'
      · subst h1
        simp [alistUpdate, alistLookup, h, ih]
      · by_cases h2 : k'' = k <;>
          simp [alistUpdate, alistLookup, h1, h2, ih, Ne.symm h]

lemma alistLookup_append (k : String) (tl tl' : Timeline) :
    alistLookup k (tl ++ tl') =
      (match alistLookup k tl with
        | some e => some e
        | none => alistLookup k tl') := by
  induction tl with
  | nil => simp [alistLookup]
  | cons p rest ih =>
      obtain ⟨k', e⟩ := p
      by_cases h : k' = k <;> simp [alistLookup, h, ih]

/-- Effect of one loop iteration of the timeline builder on lookups: at the
detection's own key, the entry (freshly seeded if absent) receives the
occurrence; other keys are untouched. -/
lemma alistLookup_timelineStep (tl : Timeline) (d : Detection) (k : String) :
    alistLookup k (timelineStep tl d) =
      (if timelineKey d = k then
        some (addOcc ((alistLookup k tl).getD (seedEntry d)) d)
      else alistLookup k tl) := by
  unfold timelineStep
  by_cases hk : timelineKey d = k
  · subst hk
    rw [if_pos rfl]
    cases hp : alistLookup (timelineKey d) tl with
    | some e =>
        simp only [hp, Option.isSome_some, if_pos]
        rw [alistLookup_update_self, hp]
        rfl
    | none =>
        simp only [hp, Option.isSome_none, Bool.false_eq_true, if_false]
        rw [alistLookup_update_self, alistLookup_append, hp]
        simp [alistLookup]
  · rw [if_neg hk]
    cases hp : alistLookup (timelineKey d) tl with
    | some e =>
        simp only [hp, Option.isSome_some, if_pos]
        exact alistLookup_update_ne _ _ hk _ tl
    | none =>
        simp only [hp, Option.isSome_none, Bool.false_eq_true, if_false]
        rw [alistLookup_update_ne _ _ hk, alistLookup_append]
        cases hq : alistLookup k tl <;> simp [alistLookup, hk, hq]

/-- The entry a group of same-key detections folds to: the first detection
seeds the entry, every detection (seed included) contributes its
occurrence. -/
def entryOfGroup : List Detection → Option TimelineEntry
  | [] => none
  | m :: ms => some (ms.foldl addOcc (addOcc (seedEntry m) m))

/-- The timeline fold, characterized per key: looking up `k` yields exactly
the fold of the sub-list of detections whose normalized key is `k`. -/
lemma alistLookup_foldl_timelineStep (ds : List Detection) (k : String) :
    alistLookup k (ds.foldl timelineStep []) =
      entryOfGroup (ds.filter fun d => decide (timelineKey d = k)) := by
  induction ds using List.reverseRecOn with
  | nil => rfl
  | append_singleton ds d ih =>
      rw [List.foldl_append, List.foldl_cons, List.foldl_nil,
        alistLookup_timelineStep, List.filter_append]
      by_cases hk : timelineKey d = k
      · rw [if_pos hk, ih]
        cases hf : ds.filter (fun d => decide (timelineKey d = k)) with
        | nil => simp [entryOfGroup, hk]
        | cons m ms => simp [entryOfGroup, hk, List.foldl_append]
      · rw [if_neg hk, ih]
        simp [hk]

lemma alistLookup_mapVal (g : TimelineEntry → TimelineEntry) (k : String)
    (tl : Timeline) :
    alistLookup k (tl.map fun p => (p.1, g p.2)) = (alistLookup k tl).map g := by
  induction tl with
  | nil => rfl
  | cons p rest ih =>
      obtain ⟨k', e⟩ := p
      by_cases h : k' = k <;> simp [alistLookup, h, ih]

/-- `_create_defect_timeline`, characterized per key. -/
lemma alistLookup_create_timeline (ds : List Detection) (k : String) :
    alistLookup k (_create_defect_timeline ds) =
      (entryOfGroup (ds.filter fun d => decide (timelineKey d = k))).map setAvg := by
  rw [_create_defect_timeline, alistLookup_mapVal, alistLookup_foldl_timelineStep]

lemma keys_alistUpdate (k : String) (f : TimelineEntry → TimelineEntry)
    (tl : Timeline) :
    (alistUpdate k f tl).map Prod.fst = tl.map Prod.fst := by
  induction tl with
  | nil => rfl
  | cons p rest ih =>
      obtain ⟨k', e⟩ := p
      by_cases h : k' = k <;> simp [alistUpdate, h, ih]

lemma alistLookup_eq_none_iff (k : String) (tl : Timeline) :
    alistLookup k tl = none ↔ k ∉ tl.map Prod.fst := by
  induction tl with
  | nil => simp [alistLookup]
  | cons p rest ih =>
      obtain ⟨k', e⟩ := p
      by_cases h : k' = k
      · simp [alistLookup, h]
      · simp [alistLookup, h, ih, Ne.symm h]

lemma keys_timelineStep (tl : Timeline) (d : Detection) :
    (timelineStep tl d).map Prod.fst =
      (if (alistLookup (timelineKey d) tl).isSome then tl.map Prod.fst
       else tl.map Prod.fst ++ [timelineKey d]) := by
  unfold timelineStep
  by_cases hp : (alistLookup (timelineKey d) tl).isSome <;>
    simp [hp, keys_alistUpdate]

/-- The Python dict never holds two entries with the same key: the key list
of the built timeline has no duplicates. -/
lemma nodup_keys_foldl (ds : List Detection) :
    ((ds.foldl timelineStep []).map Prod.fst).Nodup := by
  induction ds using List.reverseRecOn with
  | nil => simp
  | append_singleton ds d ih =>
      rw [List.foldl_append, List.foldl_cons, List.foldl_nil, keys_timelineStep]
      by_cases hp : (alistLookup (timelineKey d) (ds.foldl timelineStep [])).isSome
      · simp [hp, ih]
      · have hnone : alistLookup (timelineKey d) (ds.foldl timelineStep []) = none := by
          cases h : alistLookup (timelineKey d) (ds.foldl timelineStep [])
          · rfl
          · rw [h] at hp; simp at hp
        have hnotmem := (alistLookup_eq_none_iff _ _).mp hnone
        simp [hp, List.nodup_append, ih, hnotmem]

/-- With duplicate-free keys, association-list membership coincides with
lookup. -/
lemma mem_iff_alistLookup :
    ∀ (tl : Timeline), (tl.map Prod.fst).Nodup → ∀ (k : String) (e : TimelineEntry),
      ((k, e) ∈ tl ↔ alistLookup k tl = some e) := by
  intro tl
  induction tl with
  | nil => intro _ k e; simp [alistLookup]
  | cons p rest ih =>
      intro hnd k e
      obtain ⟨k', e'⟩ := p
      rw [List.map_cons, List.nodup_cons] at hnd
      by_cases h : k' = k
      · subst h
        have hlk : alistLookup k' ((k', e') :: rest) = some e' := by
          simp [alistLookup]
        rw [hlk, List.mem_cons]
        constructor
        · rintro (heq | hmem)
          · have he : e = e' := congrArg Prod.snd heq
            rw [he]
          · exact absurd (List.mem_map_of_mem Prod.fst hmem) hnd.1
        · intro hsome
          exact Or.inl (by rw [Option.some.inj hsome])
      · simp only [alistLookup, if_neg h, List.mem_cons]
        rw [ih hnd.2 k e]
        constructor
        · rintro (heq | hmem)
          · exact absurd (congrArg Prod.fst heq) (Ne.symm h)
          · exact hmem
        · exact Or.inr

lemma nodup_keys_create (ds : List Detection) :
    ((_create_defect_timeline ds).map Prod.fst).Nodup := by
  rw [_create_defect_timeline]
  have hkeys : ((ds.foldl timelineStep []).map (fun p => (p.1, setAvg p.2))).map Prod.fst
      = (ds.foldl timelineStep []).map Prod.fst := by
    rw [List.map_map]
    rfl
  rw [hkeys]
  exact nodup_keys_foldl ds

/-- Every entry of the built timeline is the fold of its own key's group of
detections. -/
lemma mem_create_timeline (ds : List Detection) (p : String × TimelineEntry)
    (hp : p ∈ _create_defect_timeline ds) :
    ∃ m ms, ds.filter (fun d => decide (timelineKey d = p.1)) = m :: ms ∧
      p.2 = setAvg (ms.foldl addOcc (addOcc (seedEntry m) m)) := by
  have hl : alistLookup p.1 (_create_defect_timeline ds) = some p.2 := by
    obtain ⟨k, e⟩ := p
    exact (mem_iff_alistLookup _ (nodup_keys_create ds) k e).mp hp
  rw [alistLookup_create_timeline] at hl
  cases hf : ds.filter (fun d => decide (timelineKey d = p.1)) with
  | nil => rw [hf] at hl; simp [entryOfGroup] at hl
  | cons m ms =>
      rw [hf] at hl
      simp only [entryOfGroup, Option.map_some'] at hl
      exact ⟨m, ms, rfl, (Option.some.inj hl).symm⟩

lemma foldl_addOcc_occurrences (ms : List Detection) :
    ∀ e : TimelineEntry,
      (ms.foldl addOcc e).occurrences = e.occurrences ++ ms.map mkOccurrence := by
  induction ms with
  | nil => intro e; simp
  | cons d ms ih => intro e; rw [List.foldl_cons, ih]; simp [addOcc]

lemma foldl_addOcc_first_seen (ms : List Detection) :
    ∀ e : TimelineEntry, (ms.foldl addOcc e).first_seen = e.first_seen := by
  induction ms with
  | nil => intro e; rfl
  | cons d ms ih => intro e; rw [List.foldl_cons, ih]; rfl

lemma foldl_addOcc_severity (ms : List Detection) :
    ∀ e : TimelineEntry, (ms.foldl addOcc e).severity = e.severity := by
  induction ms with
  | nil => intro e; rfl
  | cons d ms ih => intro e; rw [List.foldl_cons, ih]; rfl

lemma foldl_addOcc_defect_type (ms : List Detection) :
    ∀ e : TimelineEntry, (ms.foldl addOcc e).defect_type = e.defect_type := by
  induction ms with
  | nil => intro e; rfl
  | cons d ms ih => intro e; rw [List.foldl_cons, ih]; rfl

lemma foldl_addOcc_frame_count (ms : List Detection) :
    ∀ e : TimelineEntry, (ms.foldl addOcc e).frame_count = e.frame_count + ms.length := by
  induction ms with
  | nil => intro e; simp
  | cons d ms ih => intro e; rw [List.foldl_cons, ih]; simp [addOcc]; omega

lemma foldl_addOcc_last_seen (ms : List Detection) :
    ∀ e : TimelineEntry,
      (ms.foldl addOcc e).last_seen =
        (ms.map fun d => d.timestamp.getD 0).foldl max e.last_seen := by
  induction ms with
  | nil => intro e; rfl
  | cons d ms ih => intro e; rw [List.foldl_cons, ih]; rfl

/-- A left fold of `max` over rationals lands in the list (seed included) and
bounds every element of it. -/
lemma foldl_max_spec (l : List ℚ) :
    ∀ a : ℚ, (l.foldl max a ∈ a :: l) ∧ (∀ x ∈ a :: l, x ≤ l.foldl max a) := by
  induction l with
  | nil =>
      intro a
      refine ⟨List.mem_cons_self a [], ?_⟩
      intro x hx
      rcases List.mem_cons.mp hx with h | h
      · exact le_of_eq h
      · exact absurd h (List.not_mem_nil x)
  | cons b l ih =>
      intro a
      obtain ⟨hmem, hle⟩ := ih (max a b)
      rw [List.foldl_cons]
      constructor
      · rcases List.mem_cons.mp hmem with h | h
        · rcases max_choice a b with hab | hab
          · rw [h, hab]; exact List.mem_cons_self _ _
          · rw [h, hab]; exact List.mem_cons_of_mem _ (List.mem_cons_self _ _)
        · exact List.mem_cons_of_mem _ (List.mem_cons_of_mem _ h)
      · intro x hx
        rcases List.mem_cons.mp hx with h | h
        · rw [h]
          exact le_trans (le_max_left a b) (hle _ (List.mem_cons_self _ _))
        rcases List.mem_cons.mp h with h2 | h2
        · rw [h2]
          exact le_trans (le_max_right a b) (hle _ (List.mem_cons_self _ _))
        · exact hle x (List.mem_cons_of_mem _ h2)

/-- The fields of a timeline entry, in closed form over its key's group
`m :: ms` of detections: the occurrence list is in detection order,
`first_seen` is the seed's timestamp, `last_seen` the max over the group. -/
lemma entry_fields (ds : List Detection) (p : String × TimelineEntry)
    (hp : p ∈ _create_defect_timeline ds) :
    ∃ m ms, ds.filter (fun d => decide (timelineKey d = p.1)) = m :: ms ∧
      p.2.occurrences = (m :: ms).map mkOccurrence ∧
      p.2.first_seen = m.timestamp.getD 0 ∧
      p.2.last_seen = (ms.map fun d => d.timestamp.getD 0).foldl max (m.timestamp.getD 0) ∧
      p.2.severity = m.severity.getD "medium" ∧
      p.2.defect_type = m.detected_object.getD "Unknown" ∧
      p.2.frame_count = ms.length + 1 := by
  obtain ⟨m, ms, hf, he⟩ := mem_create_timeline ds p hp
  refine ⟨m, ms, hf, ?_, ?_, ?_, ?_, ?_, ?_⟩
  · rw [he]
    show (ms.foldl addOcc (addOcc (seedEntry m) m)).occurrences = _
    rw [foldl_addOcc_occurrences]
    simp [addOcc, seedEntry]
  · rw [he]
    show (ms.foldl addOcc (addOcc (seedEntry m) m)).first_seen = _
    rw [foldl_addOcc_first_seen]
    rfl
  · rw [he]
    show (ms.foldl addOcc (addOcc (seedEntry m) m)).last_seen = _
    rw [foldl_addOcc_last_seen]
    simp [addOcc, seedEntry]
  · rw [he]
    show (ms.foldl addOcc (addOcc (seedEntry m) m)).severity = _
    rw [foldl_addOcc_severity]
    rfl
  · rw [he]
    show (ms.foldl addOcc (addOcc (seedEntry m) m)).defect_type = _
    rw [foldl_addOcc_defect_type]
    rfl
  · rw [he]
    show (ms.foldl addOcc (addOcc (seedEntry m) m)).frame_count = _
    rw [foldl_addOcc_frame_count]
    simp [addOcc, seedEntry]
    omega

/-! ## C9: timeline first/last-seen bounds -/

/-- A detection of "crack" at timestamp 5. -/
def c9d5 : Detection := { detected_object := some "crack", timestamp := some 5 }

/-- A detection of "crack" at timestamp 1. -/
def c9d1 : Detection := { detected_object := some "crack", timestamp := some 1 }

/-- Claim C9, counterexample: the builder applied to two same-key detections
whose timestamps arrive out of order (5 then 1) sets `first_seen` to the
first occurrence's timestamp 5, even though 1 appears in the entry's own
occurrence list — so `first_seen` is not the minimum over that list.
(`first_seen` is set once at lines 310-311 of src/video_processor.py and
never updated; only `last_seen` is re-maximized at lines 327-330.) -/
theorem C9_counterexample :
    (alistLookup "crack" (_create_defect_timeline [c9d5, c9d1])).map
        TimelineEntry.first_seen = some 5 ∧
    (alistLookup "crack" (_create_defect_timeline [c9d5, c9d1])).map
        (fun e => e.occurrences.map Occurrence.timestamp) = some [5, 1] ∧
    ¬ ((5 : ℚ) ≤ 1) := by
  have hchar := alistLookup_create_timeline [c9d5, c9d1] "crack"
  have hf : [c9d5, c9d1].filter (fun d => decide (timelineKey d = "crack"))
      = [c9d5, c9d1] := by decide
  rw [hf] at hchar
  refine ⟨?_, ?_, by norm_num⟩
  · rw [hchar]
    simp [entryOfGroup, setAvg, addOcc, seedEntry, c9d5, c9d1]
  · rw [hchar]
    simp [entryOfGroup, setAvg, addOcc, seedEntry, mkOccurrence, c9d5, c9d1]

/-- Claim C9, amended: when the detection list is fed to the builder in
nondecreasing timestamp order (as `analyze_video_with_ai`, its only caller,
does), every entry's `first_seen` and `last_seen` are the minimum resp.
maximum of the entry's own occurrence timestamps; both are members of that
list (so in particular `first_seen ≤ last_seen`).  Without the ordering
hypothesis, `first_seen` is merely the first occurrence's timestamp
(see the counterexample). -/
theorem C9_timeline_bounds_amended (ds : List Detection)
    (hs : ds.Pairwise (fun a b => a.timestamp.getD 0 ≤ b.timestamp.getD 0)) :
    ∀ p ∈ _create_defect_timeline ds,
      p.2.first_seen ∈ p.2.occurrences.map Occurrence.timestamp ∧
      p.2.last_seen ∈ p.2.occurrences.map Occurrence.timestamp ∧
      ∀ t ∈ p.2.occurrences.map Occurrence.timestamp,
        p.2.first_seen ≤ t ∧ t ≤ p.2.last_seen := by
  intro p hp
  obtain ⟨m, ms, hf, hocc, hfirst, hlast, _, _, _⟩ := entry_fields ds p hp
  have hts : p.2.occurrences.map Occurrence.timestamp
      = (m :: ms).map (fun d => d.timestamp.getD 0) := by
    rw [hocc, List.map_map]
    rfl
  have hgroup : (m :: ms).Pairwise
      (fun a b => a.timestamp.getD 0 ≤ b.timestamp.getD 0) := by
    rw [← hf]
    exact List.Pairwise.sublist (List.filter_sublist ds) hs
  have hmle : ∀ d ∈ ms, m.timestamp.getD 0 ≤ d.timestamp.getD 0 :=
    (List.pairwise_cons.mp hgroup).1
  obtain ⟨hmax_mem, hmax_le⟩ :=
    foldl_max_spec (ms.map fun d => d.timestamp.getD 0) (m.timestamp.getD 0)
  refine ⟨?_, ?_, ?_⟩
  · rw [hts, hfirst, List.map_cons]
    exact List.mem_cons_self _ _
  · rw [hts, hlast, List.map_cons]
    exact hmax_mem
  · intro t ht
    rw [hts, List.map_cons] at ht
    constructor
    · rw [hfirst]
      rcases List.mem_cons.mp ht with h | h
      · exact le_of_eq h.symm
      · obtain ⟨d, hd, hdt⟩ := List.mem_map.mp h
        rw [← hdt]
        exact hmle d hd
    · rw [hlast]
      exact hmax_le t ht

/-- A detection of "crack" at timestamp 1 (sorted-input witness data). -/
def c9w1 : Detection := { detected_object := some "crack", timestamp := some 1 }

/-- A detection of "crack" at timestamp 5 (sorted-input witness data). -/
def c9w5 : Detection := { detected_object := some "crack", timestamp := some 5 }

/-- The entry the builder produces for the sorted list `[c9w1, c9w5]`. -/
def c9wEntry : TimelineEntry := setAvg (addOcc (addOcc (seedEntry c9w1) c9w1) c9w5)

/-- Witness for the amended C9 on the sorted two-detection input. -/
theorem C9_timeline_bounds_amended_witness :
    c9wEntry.first_seen ∈ c9wEntry.occurrences.map Occurrence.timestamp ∧
    c9wEntry.last_seen ∈ c9wEntry.occurrences.map Occurrence.timestamp ∧
    (c9wEntry.first_seen ≤ 5 ∧ (5 : ℚ) ≤ c9wEntry.last_seen) := by
  have hlk : alistLookup "crack" (_create_defect_timeline [c9w1, c9w5])
      = some c9wEntry := by
    rw [alistLookup_create_timeline]
    have hf : [c9w1, c9w5].filter (fun d => decide (timelineKey d = "crack"))
        = [c9w1, c9w5] := by decide
    rw [hf]
    simp [entryOfGroup, c9wEntry]
  have hmem : ("crack", c9wEntry) ∈ _create_defect_timeline [c9w1, c9w5] :=
    (mem_iff_alistLookup _ (nodup_keys_create _) "crack" c9wEntry).mpr hlk
  have hsorted : ([c9w1, c9w5] : List Detection).Pairwise
      (fun a b => a.timestamp.getD 0 ≤ b.timestamp.getD 0) := by
    simp [List.pairwise_cons, c9w1, c9w5]
  have h := C9_timeline_bounds_amended [c9w1, c9w5] hsorted ("crack", c9wEntry) hmem
  have h5 : (5 : ℚ) ∈ ("crack", c9wEntry).2.occurrences.map Occurrence.timestamp := by
    simp [c9wEntry, setAvg, addOcc, seedEntry, mkOccurrence, c9w1, c9w5]
  exact ⟨h.1, h.2.1, h.2.2 5 h5⟩

/-! ## C8: timeline grouping by normalized key -/

/-- Every detection's occurrence is recorded in the entry found at the
detection's own normalized key — and that entry's occurrence list consists
exactly of the occurrences of the detections sharing this key. -/
lemma occ_mem_own_entry (ds : List Detection) (d : Detection) (hd : d ∈ ds) :
    ∃ e, alistLookup (timelineKey d) (_create_defect_timeline ds) = some e ∧
      e.occurrences =
        (ds.filter fun x => decide (timelineKey x = timelineKey d)).map mkOccurrence := by
  rw [alistLookup_create_timeline]
  cases hf : ds.filter (fun x => decide (timelineKey x = timelineKey d)) with
  | nil =>
      exfalso
      have hdf : d ∈ ds.filter (fun x => decide (timelineKey x = timelineKey d)) :=
        List.mem_filter.mpr ⟨hd, by simp⟩
      rw [hf] at hdf
      exact List.not_mem_nil d hdf
  | cons m ms =>
      refine ⟨setAvg (ms.foldl addOcc (addOcc (seedEntry m) m)),
        by simp [entryOfGroup], ?_⟩
      show (setAvg _).occurrences = _
      simp [setAvg, foldl_addOcc_occurrences, addOcc, seedEntry]

/-- Claim C8: two detections whose `detected_object` strings agree after
lowercasing and stripping always land in the entry stored at their common
normalized key, and two whose normalized strings differ are filed under
distinct keys (the timeline holds exactly one entry per key:
`nodup_keys_create`), each carrying its own occurrence. -/
theorem C8_timeline_grouping (ds : List Detection) (dA dB : Detection)
    (sA sB : String) (hA : dA ∈ ds) (hB : dB ∈ ds)
    (hoA : dA.detected_object = some sA) (hoB : dB.detected_object = some sB) :
    (pyStrip (pyLower sA) = pyStrip (pyLower sB) →
      ∃ e, alistLookup (pyStrip (pyLower sA)) (_create_defect_timeline ds) = some e ∧
        mkOccurrence dA ∈ e.occurrences ∧ mkOccurrence dB ∈ e.occurrences) ∧
    (pyStrip (pyLower sA) ≠ pyStrip (pyLower sB) →
      timelineKey dA ≠ timelineKey dB ∧
      (∃ eA, alistLookup (timelineKey dA) (_create_defect_timeline ds) = some eA ∧
        mkOccurrence dA ∈ eA.occurrences) ∧
      (∃ eB, alistLookup (timelineKey dB) (_create_defect_timeline ds) = some eB ∧
        mkOccurrence dB ∈ eB.occurrences)) := by
  have hkA : timelineKey dA = pyStrip (pyLower sA) := by
    simp [timelineKey, hoA]
  have hkB : timelineKey dB = pyStrip (pyLower sB) := by
    simp [timelineKey, hoB]
  constructor
  · intro hss
    obtain ⟨e, hle, hocc⟩ := occ_mem_own_entry ds dA hA
    rw [hkA] at hle
    refine ⟨e, hle, ?_, ?_⟩
    · rw [hocc]
      exact List.mem_map_of_mem _ (List.mem_filter.mpr ⟨hA, by simp⟩)
    · rw [hocc]
      refine List.mem_map_of_mem _ (List.mem_filter.mpr ⟨hB, ?_⟩)
      simp [hkA, hkB, hss]
  · intro hne
    refine ⟨by rw [hkA, hkB]; exact hne, ?_, ?_⟩
    · obtain ⟨e, hle, hocc⟩ := occ_mem_own_entry ds dA hA
      exact ⟨e, hle, by
        rw [hocc]
        exact List.mem_map_of_mem _ (List.mem_filter.mpr ⟨hA, by simp⟩)⟩
    · obtain ⟨e, hle, hocc⟩ := occ_mem_own_entry ds dB hB
      exact ⟨e, hle, by
        rw [hocc]
        exact List.mem_map_of_mem _ (List.mem_filter.mpr ⟨hB, by simp⟩)⟩

/-- Scenario D detection: `"Water Stain "` at t = 1. -/
def c8w1 : Detection := { detected_object := some "Water Stain ", timestamp := some 1 }

/-- Scenario D detection: `"water stain"` at t = 5. -/
def c8w2 : Detection := { detected_object := some "water stain", timestamp := some 5 }

/-- Witness for C8 on Scenario D of the spec: `"Water Stain "` and
`"water stain"` normalize to the same key and are merged. -/
theorem C8_timeline_grouping_witness :
    ∃ e, alistLookup (pyStrip (pyLower "Water Stain "))
        (_create_defect_timeline [c8w1, c8w2]) = some e ∧
      mkOccurrence c8w1 ∈ e.occurrences ∧ mkOccurrence c8w2 ∈ e.occurrences :=
  (C8_timeline_grouping [c8w1, c8w2] c8w1 c8w2 "Water Stain " "water stain"
    (by decide) (by decide) rfl rfl).1 (by decide)

/-! ## C3: handling of absent / out-of-enum severities -/

/-- An analyzer returning one property frame with a single detection that
has no `severity` key. -/
def c3Ai : SampledFrame → Analysis := fun _ =>
  { is_property := some true
    detections := some [{ detected_object := some "crack" }] }

/-- Claim C3, counterexample: a detection with an absent severity does not
surface in `severity_counts` as "medium" (nor anything else): the tally of
lines 258-263 compares `d.get('severity')` against each of the four enum
strings, so the detection is counted in no bucket at all — the result has
one defect in total but all four severity counts are zero. -/
theorem C3_counterexample :
    analyze_video_with_ai defaultConfig (.opened ⟨1, 30⟩) c3Ai =
      .ok (processFrames [mkSample ⟨1, 30⟩ 0] c3Ai) ∧
    (processFrames [mkSample ⟨1, 30⟩ 0] c3Ai).total_defects = some 1 ∧
    (processFrames [mkSample ⟨1, 30⟩ 0] c3Ai).defect_summary =
      some { critical := 0, high := 0, medium := 0, low := 0 } :=
  ⟨rfl, by decide, by decide⟩

/-- The four-bucket severity enum test used by the tally. -/
def enumSeverity (d : Detection) : Bool :=
  decide (d.severity = some "critical") || decide (d.severity = some "high") ||
  decide (d.severity = some "medium") || decide (d.severity = some "low")

lemma length_filter_filter_enum (t : String)
    (himp : ∀ d : Detection, d.severity = some t → enumSeverity d = true)
    (ds : List Detection) :
    ((ds.filter enumSeverity).filter (fun d => decide (d.severity = some t))).length =
      (ds.filter (fun d => decide (d.severity = some t))).length := by
  rw [List.filter_filter]
  have hpt : ∀ d ∈ ds, (decide (d.severity = some t) && enumSeverity d)
      = decide (d.severity = some t) := by
    intro d _
    by_cases h : d.severity = some t
    · simp [h, himp d h]
    · simp [h]
  rw [List.filter_congr hpt]

/-- Claim C3, amended: a detection whose severity is absent or outside the
four enumerated strings contributes to none of the `severity_counts`
buckets — removing all such detections leaves `severity_counts` unchanged;
in the timeline, each entry's severity is its seeding detection's severity
with the dict default "medium" applied only when the key is absent
(an out-of-enum severity string would be preserved verbatim). -/
theorem C3_severity_amended (ds : List Detection) :
    severity_counts ds = severity_counts (ds.filter enumSeverity) ∧
    ∀ p ∈ _create_defect_timeline ds,
      ∃ d, d ∈ ds ∧ timelineKey d = p.1 ∧ p.2.severity = d.severity.getD "medium" := by
  constructor
  · simp only [severity_counts, SeverityCounts.mk.injEq]
    refine ⟨?_, ?_, ?_, ?_⟩ <;>
      exact (length_filter_filter_enum _
        (by intro d h; simp [enumSeverity, h]) ds).symm
  · intro p hp
    obtain ⟨m, ms, hf, _, _, _, hsev, _, _⟩ := entry_fields ds p hp
    have hm : m ∈ ds.filter (fun d => decide (timelineKey d = p.1)) := by
      rw [hf]
      exact List.mem_cons_self _ _
    have hm' := List.mem_filter.mp hm
    exact ⟨m, hm'.1, of_decide_eq_true hm'.2, hsev⟩

/-- The severity-less detection used in the witness. -/
def c3wDet : Detection := { detected_object := some "crack" }

/-- The entry the builder produces for `[c3wDet]`. -/
def c3wEntry : TimelineEntry := setAvg (addOcc (seedEntry c3wDet) c3wDet)

/-- Witness for the amended C3 on a single severity-less detection: the
tally ignores it and its timeline entry's severity is the dict default
"medium". -/
theorem C3_severity_amended_witness :
    severity_counts [c3wDet] = severity_counts ([c3wDet].filter enumSeverity) ∧
    (∃ d, d ∈ [c3wDet] ∧ timelineKey d = "crack" ∧
      c3wEntry.severity = d.severity.getD "medium") := by
  have hlk : alistLookup "crack" (_create_defect_timeline [c3wDet])
      = some c3wEntry := by
    rw [alistLookup_create_timeline]
    have hf : [c3wDet].filter (fun d => decide (timelineKey d = "crack"))
        = [c3wDet] := by decide
    rw [hf]
    simp [entryOfGroup, c3wEntry]
  have hmem : ("crack", c3wEntry) ∈ _create_defect_timeline [c3wDet] :=
    (mem_iff_alistLookup _ (nodup_keys_create _) "crack" c3wEntry).mpr hlk
  have h := C3_severity_amended [c3wDet]
  exact ⟨h.1, h.2 ("crack", c3wEntry) hmem⟩

/-! ## C6 and C10: which frames contribute what -/

lemma scan_fst (ai : SampledFrame → Analysis) (frames : List SampledFrame) :
    (pipelineScan ai frames).1 =
      (frames.filter fun f => (ai f).is_property.getD true).flatMap
        (fun f => ((ai f).detections.getD []).map (withTime f)) := by
  rw [pipelineScan_eq]

lemma scan_snd (ai : SampledFrame → Analysis) (frames : List SampledFrame) :
    (pipelineScan ai frames).2.1 =
      (frames.filter fun f => (ai f).is_property.getD true).map
        (fun f => mkFrameAnalysis (ai f) f) := by
  rw [pipelineScan_eq]

lemma scan_np (ai : SampledFrame → Analysis) (frames : List SampledFrame) :
    (pipelineScan ai frames).2.2 =
      (frames.filter fun f => !(ai f).is_property.getD true).length := by
  rw [pipelineScan_eq]

/-- Every detection in the flat list carries the frame number of a frame the
classifier did not flag as non-property. -/
lemma all_detections_sources (ai : SampledFrame → Analysis)
    (frames : List SampledFrame) :
    ∀ d ∈ (pipelineScan ai frames).1,
      ∃ g, g ∈ frames ∧ (ai g).is_property.getD true = true ∧
        d.frame_number = some g.frame_number := by
  intro d hd
  rw [scan_fst] at hd
  obtain ⟨g, hg, hdg⟩ := List.mem_flatMap.mp hd
  have hgf := List.mem_filter.mp hg
  obtain ⟨d0, _, hw⟩ := List.mem_map.mp hdg
  refine ⟨g, hgf.1, hgf.2, ?_⟩
  rw [← hw]
  rfl

lemma withTime_mem_scan (ai : SampledFrame → Analysis) (frames : List SampledFrame)
    (f : SampledFrame) (d : Detection) (hf : f ∈ frames)
    (hP : (ai f).is_property.getD true = true)
    (hd : d ∈ (ai f).detections.getD []) :
    withTime f d ∈ (pipelineScan ai frames).1 := by
  rw [scan_fst]
  exact List.mem_flatMap.mpr
    ⟨f, List.mem_filter.mpr ⟨hf, hP⟩, List.mem_map_of_mem _ hd⟩

lemma mkFA_mem_scan (ai : SampledFrame → Analysis) (frames : List SampledFrame)
    (f : SampledFrame) (hf : f ∈ frames)
    (hP : (ai f).is_property.getD true = true) :
    mkFrameAnalysis (ai f) f ∈ (pipelineScan ai frames).2.1 := by
  rw [scan_snd]
  exact List.mem_map_of_mem _ (List.mem_filter.mpr ⟨hf, hP⟩)

/-- Claim C6: a frame the classifier flags with `is_property=false`
contributes no detection to the flat list, no record to the per-frame list
and no occurrence to any timeline entry (frames are identified by their
frame numbers, which the sampler emits strictly increasing, hence pairwise
distinct); such frames are counted exactly in
`non_property_frames` and still count toward `frames_analyzed`. -/
theorem C6_non_property_exclusion (cfg : VPConfig) (src : VideoSource)
    (ai : SampledFrame → Analysis) (frames : List SampledFrame) (r : VideoResult)
    (hx : extract_frames cfg src = .ok frames) (hne : ¬ frames.isEmpty)
    (hr : analyze_video_with_ai cfg src ai = .ok r)
    (f : SampledFrame) (hf : f ∈ frames)
    (hnp : (ai f).is_property = some false) :
    r.frames_analyzed = frames.length ∧
    r.non_property_frames =
      some ((frames.filter fun g => !(ai g).is_property.getD true).length) ∧
    (∀ d ∈ r.all_detections, d.frame_number ≠ some f.frame_number) ∧
    (∀ fa ∈ r.frame_analyses, fa.frame_number ≠ f.frame_number) ∧
    (∀ p ∈ r.defect_timeline.getD [], ∀ o ∈ p.2.occurrences,
      o.frame_number ≠ f.frame_number) := by
  simp only [analyze_video_with_ai, hx, if_neg hne] at hr
  have hr' := (Except.ok.inj hr).symm
  subst hr'
  have hPf : (ai f).is_property.getD true = false := by rw [hnp]; rfl
  have hlt : frames.Pairwise (fun a b => a.frame_number < b.frame_number) := by
    cases src with
    | unopenable => rw [extract_frames] at hx; exact absurd hx (by simp)
    | opened meta => exact (extract_frames_pairwise cfg meta frames hx).1
  have hpairs : frames.Pairwise
      (fun a b => a.frame_number ≠ b.frame_number) :=
    hlt.imp (fun h => Nat.ne_of_lt h)
  have hsym : Symmetric (fun a b : SampledFrame =>
      a.frame_number ≠ b.frame_number) := fun _ _ h => h.symm
  have hdiff : ∀ g ∈ frames, (ai g).is_property.getD true = true →
      g.frame_number ≠ f.frame_number := by
    intro g hg hPg
    have hgf : g ≠ f := by
      intro he
      rw [he, hPf] at hPg
      exact Bool.false_ne_true hPg
    exact hpairs.forall hsym hg hf hgf
  have hdets : ∀ d ∈ (pipelineScan ai frames).1,
      d.frame_number ≠ some f.frame_number := by
    intro d hd
    obtain ⟨g, hg, hPg, hdfn⟩ := all_detections_sources ai frames d hd
    rw [hdfn]
    intro hcontra
    exact hdiff g hg hPg (Option.some.inj hcontra)
  have hfas : ∀ fa ∈ (pipelineScan ai frames).2.1,
      fa.frame_number ≠ f.frame_number := by
    intro fa hfa
    rw [scan_snd] at hfa
    obtain ⟨g, hg, hw⟩ := List.mem_map.mp hfa
    have hgf := List.mem_filter.mp hg
    rw [← hw]
    exact hdiff g hgf.1 hgf.2
  rw [processFrames]
  by_cases hd0 : (pipelineScan ai frames).1.isEmpty
  · rw [if_pos hd0]
    refine ⟨rfl, by rw [scan_np], ?_, ?_, ?_⟩
    · intro d hd
      exact absurd hd (List.not_mem_nil d)
    · intro fa hfa
      exact absurd hfa (List.not_mem_nil fa)
    · intro p hp
      simp at hp
  · rw [if_neg hd0]
    refine ⟨rfl, by rw [scan_np], hdets, hfas, ?_⟩
    intro p hp o ho
    obtain ⟨m, ms, hfgroup, hocc, _, _, _, _, _⟩ :=
      entry_fields (pipelineScan ai frames).1 p hp
    rw [hocc] at ho
    obtain ⟨d, hd, hmo⟩ := List.mem_map.mp ho
    have hd' : d ∈ (pipelineScan ai frames).1 := by
      have hdm : d ∈ (pipelineScan ai frames).1.filter
          (fun x => decide (timelineKey x = p.1)) := by
        rw [hfgroup]
        exact hd
      exact (List.mem_filter.mp hdm).1
    obtain ⟨g, hg, hPg, hdfn⟩ := all_detections_sources ai frames d hd'
    rw [← hmo]
    show (mkOccurrence d).frame_number ≠ f.frame_number
    have : (mkOccurrence d).frame_number = g.frame_number := by
      simp [mkOccurrence, hdfn]
    rw [this]
    exact hdiff g hg hPg

/-- An analyzer flagging frame 1 as non-property (with detections attached,
which must be ignored) and every other frame as a property frame with one
high-severity detection. -/
def c6Ai : SampledFrame → Analysis := fun f =>
  if f.frame_number = 1 then
    { is_property := some false
      detections := some [{ detected_object := some "sky" }] }
  else
    { is_property := some true
      detections := some [{ detected_object := some "crack", severity := some "high" }] }

/-- Witness for C6 on a 2-frame video whose second frame is non-property:
both frames count toward `frames_analyzed`, exactly one toward
`non_property_frames`. -/
theorem C6_non_property_exclusion_witness :
    (processFrames [mkSample ⟨2, 30⟩ 0, mkSample ⟨2, 30⟩ 1] c6Ai).frames_analyzed = 2 ∧
    (processFrames [mkSample ⟨2, 30⟩ 0, mkSample ⟨2, 30⟩ 1] c6Ai).non_property_frames
      = some 1 := by
  have h := C6_non_property_exclusion defaultConfig (.opened ⟨2, 30⟩) c6Ai
    [mkSample ⟨2, 30⟩ 0, mkSample ⟨2, 30⟩ 1]
    (processFrames [mkSample ⟨2, 30⟩ 0, mkSample ⟨2, 30⟩ 1] c6Ai)
    rfl (by decide) rfl (mkSample ⟨2, 30⟩ 1) (by simp) rfl
  exact ⟨h.1, h.2.1⟩

/-- Claim C10: a frame whose analysis lacks the `is_property` key entirely
is treated as a property frame — `analysis.get('is_property', True)` at
line 220 defaults to `True` — so it is not counted in `non_property_frames`
and its detections and per-frame record enter the result. -/
theorem C10_missing_flag_is_property (cfg : VPConfig) (src : VideoSource)
    (ai : SampledFrame → Analysis) (frames : List SampledFrame) (r : VideoResult)
    (f : SampledFrame)
    (hx : extract_frames cfg src = .ok frames) (hne : ¬ frames.isEmpty)
    (hr : analyze_video_with_ai cfg src ai = .ok r)
    (hf : f ∈ frames) (hmiss : (ai f).is_property = none)
    (hdets : (ai f).detections.getD [] ≠ []) :
    r.non_property_frames =
      some ((frames.filter fun g => !(ai g).is_property.getD true).length) ∧
    (!(ai f).is_property.getD true) = false ∧
    mkFrameAnalysis (ai f) f ∈ r.frame_analyses ∧
    ∀ d ∈ (ai f).detections.getD [], withTime f d ∈ r.all_detections := by
  simp only [analyze_video_with_ai, hx, if_neg hne] at hr
  have hr' := (Except.ok.inj hr).symm
  subst hr'
  have hP : (ai f).is_property.getD true = true := by rw [hmiss]; rfl
  obtain ⟨d0, hd0⟩ := List.exists_mem_of_ne_nil _ hdets
  have hmem0 : withTime f d0 ∈ (pipelineScan ai frames).1 :=
    withTime_mem_scan ai frames f d0 hf hP hd0
  have hnemp : ¬ (pipelineScan ai frames).1.isEmpty := by
    intro habs
    rw [List.isEmpty_iff] at habs
    rw [habs] at hmem0
    exact List.not_mem_nil _ hmem0
  rw [processFrames, if_neg hnemp]
  refine ⟨by rw [scan_np], by rw [hmiss]; rfl, mkFA_mem_scan ai frames f hf hP, ?_⟩
  intro d hd
  exact withTime_mem_scan ai frames f d hf hP hd

/-- An analyzer whose result carries no `is_property` key at all, with one
detection. -/
def c10Ai : SampledFrame → Analysis := fun _ =>
  { detections := some [{ detected_object := some "crack", severity := some "low" }] }

/-- Witness for C10 on a 1-frame video: the flag-less frame's record and
detection reach the result, and no frame is counted as non-property. -/
theorem C10_missing_flag_is_property_witness :
    (processFrames [mkSample ⟨1, 30⟩ 0] c10Ai).non_property_frames = some 0 ∧
    mkFrameAnalysis (c10Ai (mkSample ⟨1, 30⟩ 0)) (mkSample ⟨1, 30⟩ 0) ∈
      (processFrames [mkSample ⟨1, 30⟩ 0] c10Ai).frame_analyses ∧
    withTime (mkSample ⟨1, 30⟩ 0)
        { detected_object := some "crack", severity := some "low" } ∈
      (processFrames [mkSample ⟨1, 30⟩ 0] c10Ai).all_detections := by
  have h := C10_missing_flag_is_property defaultConfig (.opened ⟨1, 30⟩) c10Ai
    [mkSample ⟨1, 30⟩ 0] (processFrames [mkSample ⟨1, 30⟩ 0] c10Ai)
    (mkSample ⟨1, 30⟩ 0) rfl (by decide) rfl (by simp) rfl (by decide)
  exact ⟨h.1, h.2.2.1, h.2.2.2 _ (by simp [c10Ai])⟩

/-! ## C4: classifier-adapter failure handling -/

/-- A dict the regex rescue can extract from a response such as
`"Sorry — {\x22is_property\x22: false}"`: direct `json.loads` fails on the
leading prose, but the `\x7b.*\x7d` search of line 228 finds and parses the
embedded object. -/
def c4Extracted : Analysis :=
  { is_property := some false
    message := some "This image does not appear to be property-related." }

/-- Claim C4, counterexample: an unparseable classifier response from which
the regex rescue (src/gemini_intagration.py lines 225-234) extracts a JSON
object is returned verbatim — here with `is_property = false`, no
detections and no score — so a classifier failure does not always yield the
degraded result (is_property=true, one synthetic medium detection,
score 70). -/
theorem C4_counterexample :
    analyze_image_with_gemini (.unparseableRescued c4Extracted) = c4Extracted ∧
    c4Extracted.is_property = some false ∧
    c4Extracted.detections = none ∧
    c4Extracted.overall_condition_score ≠ some 70 :=
  ⟨rfl, rfl, rfl, by decide⟩

/-- Claim C4, amended: the adapter returns the degraded
`get_fallback_analysis` result — is_property true, exactly one synthetic
Detection at severity "medium", overall score 70 — on an API error, on a
response that parses to a non-dict, and on an unparseable response the
regex rescue cannot save; but when direct parsing fails and the regex
rescue succeeds, the extracted object is returned verbatim and may satisfy
none of those properties. -/
theorem C4_adapter_failure_amended :
    (∀ msg, analyze_image_with_gemini (.apiError msg) = get_fallback_analysis) ∧
    analyze_image_with_gemini .parsedNonDict = get_fallback_analysis ∧
    analyze_image_with_gemini .unparseableNoRescue = get_fallback_analysis ∧
    (∀ r, analyze_image_with_gemini (.unparseableRescued r) = r) ∧
    get_fallback_analysis.is_property = some true ∧
    get_fallback_analysis.detections = some [fallbackDetection] ∧
    fallbackDetection.severity = some "medium" ∧
    get_fallback_analysis.overall_condition_score = some 70 :=
  ⟨fun _ => rfl, rfl, rfl, fun _ => rfl, rfl, rfl, rfl, rfl⟩
